import Mathlib

/-
Verification of the buffering, flush-triggering, serialization and
checkpoint-emission engine of target-stitch (src/target_stitch/__init__.py).

The embedding translates the Python source into Lean:
  * JSON values are the inductive `Json`; `Json.dumps` models json.dumps
    with its default separators, and `Json.parse` models json.loads for the
    subset of JSON the claims exercise (null, booleans, integers, strings,
    arrays, objects).
  * The two bufferable singer message kinds are `BMessage`; the full parsed
    message model handled by TargetStitch.handle_line is `Message`.
  * `serialize` is the recursive batch serializer (lines 234-276).
  * `TargetStitch` is the engine state; `flush` and `handle_message` model
    TargetStitch.flush (lines 319-336) and TargetStitch.handle_line
    (lines 338-377).  Wall-clock reads (time.time()) are passed in as the
    `now` argument, raw-line byte lengths as `line_len`, and the sinks
    (self.handlers) as a list of functions returning `none` on success or
    `some errorMessage` when the sink raises; writes to the state_writer
    are returned as a list of emitted lines.  A raised exception is an
    `err` field carrying the engine state as it was when the exception
    escaped.
  * `send_with_retries` models the backoff.on_exception retry decorator on
    StitchHandler.send, and `handle_http_error` the HTTPError branch of
    StitchHandler.handle_batch.
-/

/-- JSON values: the data model for records, schemas and checkpoint state. -/
inductive Json where
  | null
  | bool (b : Bool)
  | num (n : Int)
  | str (s : String)
  | arr (elems : List Json)
  | obj (fields : List (String × Json))

/-- Escape one character for inclusion in a JSON string literal. -/
def escapeChar (c : Char) : String :=
  if c = '"' then "\\\""
  else if c = '\\' then "\\\\"
  else if c = '\n' then "\\n"
  else String.singleton c

/-- Escape a string for inclusion in a JSON document. -/
def escapeString (s : String) : String :=
  String.join (s.data.map escapeChar)

mutual

/-- Model of Python's json.dumps with its default separators (comma-space
between items, colon-space after keys), as used by serialize (line 264) and
flush (line 331). -/
def Json.dumps : Json → String
  | .null => "null"
  | .bool true => "true"
  | .bool false => "false"
  | .num n => toString n
  | .str s => "\"" ++ escapeString s ++ "\""
  | .arr elems => "[" ++ Json.dumpsElems elems ++ "]"
  | .obj fields => "\x7b" ++ Json.dumpsFields fields ++ "\x7d"

/-- Comma-separated serialization of the elements of a JSON array. -/
def Json.dumpsElems : List Json → String
  | [] => ""
  | [j] => Json.dumps j
  | j :: rest => Json.dumps j ++ ", " ++ Json.dumpsElems rest

/-- Comma-separated serialization of the members of a JSON object. -/
def Json.dumpsFields : List (String × Json) → String
  | [] => ""
  | [(k, v)] => "\"" ++ escapeString k ++ "\": " ++ Json.dumps v
  | (k, v) :: rest =>
      "\"" ++ escapeString k ++ "\": " ++ Json.dumps v ++ ", " ++ Json.dumpsFields rest

end

/-- Python truthiness of a JSON value, as tested by `if self.state:` in
flush (line 330): None/null, False, 0, the empty string, the empty array
and the empty object are falsy. -/
def Json.truthy : Json → Bool
  | .null => false
  | .bool b => b
  | .num n => n != 0
  | .str s => s != ""
  | .arr elems => !elems.isEmpty
  | .obj fields => !fields.isEmpty

/-- Drop leading JSON whitespace. -/
def skipWs : List Char → List Char
  | [] => []
  | c :: cs => if c = ' ' ∨ c = '\n' ∨ c = '\t' ∨ c = '\r' then skipWs cs else c :: cs

/-- Read the remainder of a JSON string literal (the opening quote already
consumed), returning the decoded text and the rest of the input. -/
def parseStringBody : List Char → Option (String × List Char)
  | [] => none
  | '"' :: rest => some ("", rest)
  | '\\' :: c :: rest =>
      (parseStringBody rest).map fun sr =>
        ((if c = 'n' then "\n" else if c = 't' then "\t" else String.singleton c) ++ sr.1, sr.2)
  | c :: rest => (parseStringBody rest).map fun sr => (String.singleton c ++ sr.1, sr.2)

/-- Split off a maximal run of leading decimal digits. -/
def spanDigits : List Char → (List Char × List Char)
  | [] => ([], [])
  | c :: cs =>
      if c.isDigit then
        let r := spanDigits cs
        (c :: r.1, r.2)
      else ([], c :: cs)

/-- Read a nonempty run of decimal digits as a natural number. -/
def parseNatNum (cs : List Char) : Option (Nat × List Char) :=
  match spanDigits cs with
  | ([], _) => none
  | (ds, rest) => some (ds.foldl (fun acc c => acc * 10 + (c.toNat - 48)) 0, rest)

mutual

/-- Recursive-descent JSON value parser; fuel bounds the recursion depth
and `Json.parse` supplies a sufficient amount. -/
def parseValue : Nat → List Char → Option (Json × List Char)
  | 0, _ => none
  | fuel + 1, cs =>
    match skipWs cs with
    | 'n' :: 'u' :: 'l' :: 'l' :: rest => some (.null, rest)
    | 't' :: 'r' :: 'u' :: 'e' :: rest => some (.bool true, rest)
    | 'f' :: 'a' :: 'l' :: 's' :: 'e' :: rest => some (.bool false, rest)
    | '"' :: rest => (parseStringBody rest).map fun sr => (.str sr.1, sr.2)
    | '[' :: rest =>
        (match skipWs rest with
         | ']' :: rest2 => some (.arr [], rest2)
         | _ => (parseElements fuel rest).map fun er => (.arr er.1, er.2))
    | '\x7b' :: rest =>
        (match skipWs rest with
         | '\x7d' :: rest2 => some (.obj [], rest2)
         | _ => (parseMembers fuel rest).map fun mr => (.obj mr.1, mr.2))
    | '-' :: rest => (parseNatNum rest).map fun nr => (.num (-(nr.1 : Int)), nr.2)
    | c :: rest =>
        if c.isDigit then (parseNatNum (c :: rest)).map fun nr => (.num (nr.1 : Int), nr.2)
        else none
    | [] => none

/-- Parse the comma-separated elements of a nonempty JSON array up to and
including the closing bracket. -/
def parseElements : Nat → List Char → Option (List Json × List Char)
  | 0, _ => none
  | fuel + 1, cs =>
      (parseValue fuel cs).bind fun vr =>
        match skipWs vr.2 with
        | ',' :: rest => (parseElements fuel rest).map fun er => (vr.1 :: er.1, er.2)
        | ']' :: rest => some ([vr.1], rest)
        | _ => none

/-- Parse the comma-separated members of a nonempty JSON object up to and
including the closing brace. -/
def parseMembers : Nat → List Char → Option (List (String × Json) × List Char)
  | 0, _ => none
  | fuel + 1, cs =>
      match skipWs cs with
      | '"' :: rest =>
          (parseStringBody rest).bind fun kr =>
            match skipWs kr.2 with
            | ':' :: rest2 =>
                (parseValue fuel rest2).bind fun vr =>
                  match skipWs vr.2 with
                  | ',' :: rest3 =>
                      (parseMembers fuel rest3).map fun mr => ((kr.1, vr.1) :: mr.1, mr.2)
                  | '\x7d' :: rest3 => some ([(kr.1, vr.1)], rest3)
                  | _ => none
            | _ => none
      | _ => none

end

/-- Model of json.loads: parse a complete JSON document, rejecting
trailing garbage. -/
def Json.parse (s : String) : Option Json :=
  (parseValue (2 * s.length + 2) s.data).bind fun vr =>
    match skipWs vr.2 with
    | [] => some vr.1
    | _ => none

/-- Python dict subscript for an object decoded by json.loads: with
duplicate keys the last occurrence wins, a missing key is a KeyError
(`none`). -/
def dict_get : List (String × Json) → String → Option Json
  | [], _ => none
  | (k, v) :: rest, key =>
      match dict_get rest key with
      | some r => some r
      | none => if k = key then some v else none

/-- The two singer message kinds the engine buffers (RecordMessage and
ActivateVersionMessage), with exactly the attributes the target reads:
stream, record and version. -/
inductive BMessage where
  | record (stream : String) (record : Json) (version : Option Int)
  | activateVersion (stream : String) (version : Option Int)

/-- The message.stream attribute. -/
def BMessage.stream : BMessage → String
  | .record s _ _ => s
  | .activateVersion s _ => s

/-- The message.version attribute (None for an unversioned record). -/
def BMessage.version : BMessage → Option Int
  | .record _ _ v => v
  | .activateVersion _ v => v

/-- One entry of the request body's 'messages' array (serialize, lines
243-253).  `vintage` and `seq` stand for the environment-sampled values
datetime.now(timezone.utc).isoformat() and int(time.time() * 1000); they
are passed in as parameters. -/
def serialize_message (vintage : String) (seq : Int) : BMessage → Json
  | .record _ r _ =>
      .obj [("action", .str "upsert"), ("data", r),
            ("vintage", .str vintage), ("sequence", .num seq)]
  | .activateVersion _ _ =>
      .obj [("action", .str "activate_version"), ("sequence", .num seq)]

/-- The request body dict built by serialize (lines 255-262): table_name,
schema, key_names and messages, plus table_version iff
messages[0].version is not None (appended last, matching Python dict
insertion order).  `m0` is messages[0]. -/
def mk_body (m0 : BMessage) (messages : List BMessage) (schema : Json)
    (key_names : List String) (vintage : String) (seq : Int) : Json :=
  Json.obj
    ([("table_name", Json.str m0.stream),
      ("schema", schema),
      ("key_names", Json.arr (key_names.map Json.str)),
      ("messages", Json.arr (messages.map (serialize_message vintage seq)))] ++
     (match m0.version with
      | some v => [("table_version", Json.num v)]
      | none => []))

/-- The 'messages' array of a request body object (empty if absent). -/
def body_messages (j : Json) : List Json :=
  match j with
  | .obj fields =>
      match dict_get fields "messages" with
      | some (.arr elems) => elems
      | _ => []
  | _ => []

/-- Errors serialize can raise: BatchTooLargeException (lines 104-107,
270-271), or the IndexError from messages[0] on an empty input list. -/
inductive SerializeError where
  | batchTooLarge
  | indexError
  deriving DecidableEq

/-- Model of serialize (lines 234-276): build the request body for the
whole list and serialize it; if its length is under max_bytes return it as
the single body; otherwise fail if at most one message remains, else split
at the midpoint and recur on both halves, concatenating the two result
lists in order. -/
def serialize (messages : List BMessage) (schema : Json) (key_names : List String)
    (max_bytes : Nat) (vintage : String) (seq : Int) :
    Except SerializeError (List String) :=
  match messages with
  | [] => .error .indexError
  | m0 :: rest =>
    let serialized := Json.dumps (mk_body m0 (m0 :: rest) schema key_names vintage seq)
    if serialized.length < max_bytes then .ok [serialized]
    else if (m0 :: rest).length ≤ 1 then .error .batchTooLarge
    else
      let pivot := (m0 :: rest).length / 2
      (serialize ((m0 :: rest).take pivot) schema key_names max_bytes vintage seq).bind fun l_half =>
      (serialize ((m0 :: rest).drop pivot) schema key_names max_bytes vintage seq).map fun r_half =>
      l_half ++ r_half
termination_by messages.length
decreasing_by
  · simp only [List.length_take, List.length_drop, List.length_cons] at *
    omega
  · simp only [List.length_take, List.length_drop, List.length_cons] at *
    omega

/-- The request body object serialize would build for a chunk of the input
list (`Json.null` for the never-occurring empty chunk). -/
def chunk_body (c : List BMessage) (schema : Json) (key_names : List String)
    (vintage : String) (seq : Int) : Json :=
  match c with
  | [] => Json.null
  | m0 :: rest => mk_body m0 (m0 :: rest) schema key_names vintage seq

/-- Schema and key properties stored per stream (StreamMeta, line 37). -/
structure StreamMeta where
  schema : Json
  key_properties : List String

/-- Dict lookup in the stream_meta mapping; `none` is a KeyError. -/
def meta_lookup : List (String × StreamMeta) → String → Option StreamMeta
  | [], _ => none
  | (k, v) :: rest, key => if k = key then some v else meta_lookup rest key

/-- Dict assignment in the stream_meta mapping (overwrite or add). -/
def meta_insert : List (String × StreamMeta) → String → StreamMeta → List (String × StreamMeta)
  | [], key, v => [(key, v)]
  | (k0, v0) :: rest, key, v =>
      if k0 = key then (key, v) :: rest else (k0, v0) :: meta_insert rest key v

/-- A configured sink's batch-handling operation (handle_batch), applied to
the buffered messages, the stream's schema and its key properties; `none`
means it completed, `some e` that it raised an error described by `e`. -/
def Handler : Type := List BMessage → Json → List String → Option String

/-- Errors that can escape flush: the KeyError from the stream_meta lookup
(line 323) or an error raised by a sink's handle_batch (line 325). -/
inductive EngineError where
  | keyError (stream : String)
  | sinkError (e : String)
  deriving DecidableEq

/-- Invoke every configured sink in configured order (line 324-325); the
first error raised propagates and later sinks do not run. -/
def run_handlers (hs : List Handler) (messages : List BMessage) (schema : Json)
    (key_names : List String) : Option String :=
  match hs with
  | [] => none
  | h :: rest =>
      match h messages schema key_names with
      | some e => some e
      | none => run_handlers rest messages schema key_names

/-- The mutable state of a TargetStitch object (lines 287-315): the
buffered messages, the byte counter of raw buffered lines, the pending
checkpoint (self.state), the per-stream metadata dict, the three batch
limits, and the time the last batch was sent.  Times and durations are
modelled as integers. -/
structure TargetStitch where
  messages : List BMessage
  buffer_size_bytes : Nat
  state : Option Json
  stream_meta : List (String × StreamMeta)
  max_batch_bytes : Nat
  max_batch_records : Nat
  batch_delay_seconds : Int
  time_last_batch_sent : Int

/-- A freshly constructed TargetStitch (lines 287-315): empty buffer, zero
byte counter, no pending checkpoint, empty stream_meta, and
time_last_batch_sent initialized to the construction time `t0`. -/
def TargetStitch.init (max_batch_bytes max_batch_records : Nat)
    (batch_delay_seconds t0 : Int) : TargetStitch :=
  { messages := []
    buffer_size_bytes := 0
    state := none
    stream_meta := []
    max_batch_bytes := max_batch_bytes
    max_batch_records := max_batch_records
    batch_delay_seconds := batch_delay_seconds
    time_last_batch_sent := t0 }

/-- Result of one flush (or of handling one line): the error that escaped,
if any; the object state once control left the method (on an error, the
state at the moment the exception escaped); and the lines written to the
state_writer. -/
structure FlushOut where
  err : Option EngineError
  ts : TargetStitch
  out : List String

/-- Step 1 of flush (lines 322-328): if the buffer is non-empty, look up
StreamMeta for the buffer's stream (KeyError if absent), run every
handler's handle_batch on (messages, schema, key_properties) in order,
then set time_last_batch_sent to now and clear the buffer and byte
counter.  An error escapes before any mutation, so the state it leaves
behind is the input state and nothing has been written. -/
def flush_step1 (hs : List Handler) (now : Int) (ts : TargetStitch) : FlushOut :=
  match ts.messages with
  | [] => ⟨none, ts, []⟩
  | m0 :: _ =>
    match meta_lookup ts.stream_meta m0.stream with
    | none => ⟨some (.keyError m0.stream), ts, []⟩
    | some meta =>
      match run_handlers hs ts.messages meta.schema meta.key_properties with
      | some e => ⟨some (.sinkError e), ts, []⟩
      | none =>
          ⟨none,
           { ts with time_last_batch_sent := now, messages := [], buffer_size_bytes := 0 },
           []⟩

/-- Step 2 of flush (lines 330-336): if self.state is truthy, write its
json.dumps plus a newline to the state_writer and clear self.state. -/
def flush_step2 (ts : TargetStitch) : TargetStitch × List String :=
  match ts.state with
  | some v =>
      if v.truthy then ({ ts with state := none }, [Json.dumps v ++ "\n"])
      else (ts, [])
  | none => (ts, [])

/-- Model of TargetStitch.flush (lines 319-336): step 1, then — only when
step 1 did not raise (step 1 itself writes nothing) — step 2. -/
def flush (hs : List Handler) (now : Int) (ts : TargetStitch) : FlushOut :=
  match flush_step1 hs now ts with
  | ⟨some e, ts1, out1⟩ => ⟨some e, ts1, out1⟩
  | ⟨none, ts1, _⟩ =>
      let s2 := flush_step2 ts1
      ⟨none, s2.1, s2.2⟩

/-- All parsed singer message kinds handled by handle_line, with the
attributes the target reads. -/
inductive Message where
  | schema (stream : String) (schema : Json) (key_properties : List String)
  | record (stream : String) (record : Json) (version : Option Int)
  | activateVersion (stream : String) (version : Option Int)
  | state (value : Json)

/-- The buffered form of a message, when it is one of the two buffered
kinds. -/
def Message.toBuffered : Message → Option BMessage
  | .record s r v => some (.record s r v)
  | .activateVersion s v => some (.activateVersion s v)
  | _ => none

/-- The test at lines 357-359: the buffer is non-empty and the incoming
message's (stream, version) differs from the buffer's current pair. -/
def buffer_mismatch (b : BMessage) (ts : TargetStitch) : Bool :=
  match ts.messages with
  | [] => false
  | m0 :: _ => b.stream != m0.stream || b.version != m0.version

/-- The flush trigger evaluated after an append (lines 364-371): enough
bytes OR enough messages OR enough seconds since the last batch was sent. -/
def trigger (now : Int) (ts : TargetStitch) : Bool :=
  decide (ts.buffer_size_bytes ≥ ts.max_batch_bytes) ||
  decide (ts.messages.length ≥ ts.max_batch_records) ||
  decide (now - ts.time_last_batch_sent ≥ ts.batch_delay_seconds)

/-- Result of handling one line: like `FlushOut`, plus the number of times
flush() was invoked while handling the line. -/
structure HandleOut where
  err : Option EngineError
  ts : TargetStitch
  out : List String
  flushes : Nat

/-- The buffer and byte counter after appending one message (lines
361-362). -/
def append_message (line_len : Nat) (b : BMessage) (ts : TargetStitch) : TargetStitch :=
  { ts with
      messages := ts.messages ++ [b],
      buffer_size_bytes := ts.buffer_size_bytes + line_len }

/-- Lines 361-374: append the message and add the line length to the byte
counter, then flush iff any trigger fires.  `out0` and `n0` carry the
output lines and flush count the mismatch flush already produced. -/
def append_then_check (hs : List Handler) (now : Int) (line_len : Nat)
    (b : BMessage) (out0 : List String) (n0 : Nat) (ts : TargetStitch) : HandleOut :=
  if trigger now (append_message line_len b ts) then
    match flush hs now (append_message line_len b ts) with
    | ⟨e2, ts3, out2⟩ => ⟨e2, ts3, out0 ++ out2, n0 + 1⟩
  else ⟨none, append_message line_len b ts, out0, n0⟩

/-- The RecordMessage / ActivateVersionMessage branch of handle_line
(lines 356-374): flush first when the buffer is non-empty with a different
(stream, version) — an error there aborts the line — then append and
check the triggers. -/
def handle_buffered (hs : List Handler) (now : Int) (line_len : Nat)
    (b : BMessage) (ts : TargetStitch) : HandleOut :=
  if buffer_mismatch b ts then
    match flush hs now ts with
    | ⟨some e, ts1, out1⟩ => ⟨some e, ts1, out1, 1⟩
    | ⟨none, ts1, out1⟩ => append_then_check hs now line_len b out1 1 ts1
  else append_then_check hs now line_len b [] 0 ts

/-- Model of TargetStitch.handle_line (lines 338-377) on an
already-parsed message.  `line_len` is len(line) for the raw input line and
`now` the wall-clock value time.time() reads during the call.
SchemaMessage: flush, then overwrite the stream's StreamMeta entry.
RecordMessage / ActivateVersionMessage: flush first if the buffer is
non-empty with a different (stream, version); append the message and add
the line length to the byte counter; then flush if any trigger fires.
StateMessage: overwrite self.state, nothing else. -/
def handle_message (hs : List Handler) (now : Int) (line_len : Nat)
    (msg : Message) (ts : TargetStitch) : HandleOut :=
  match msg with
  | .schema stream sch keys =>
      match flush hs now ts with
      | ⟨some e, ts1, out1⟩ => ⟨some e, ts1, out1, 1⟩
      | ⟨none, ts1, out1⟩ =>
          ⟨none,
           { ts1 with stream_meta := meta_insert ts1.stream_meta stream ⟨sch, keys⟩ },
           out1, 1⟩
  | .record stream r v => handle_buffered hs now line_len (.record stream r v) ts
  | .activateVersion stream v => handle_buffered hs now line_len (.activateVersion stream v) ts
  | .state v => ⟨none, { ts with state := some v }, [], 0⟩

/-- Engine states reachable from a freshly constructed TargetStitch by
handling lines and by direct flush() calls (consume, line 384), for any
configured handlers, wall-clock readings and input lines. -/
inductive Reachable : TargetStitch → Prop where
  | init (max_batch_bytes max_batch_records : Nat) (batch_delay_seconds t0 : Int) :
      Reachable (TargetStitch.init max_batch_bytes max_batch_records batch_delay_seconds t0)
  | step (hs : List Handler) (now : Int) (line_len : Nat) (msg : Message)
      (ts : TargetStitch) :
      Reachable ts → Reachable (handle_message hs now line_len msg ts).ts
  | flush_step (hs : List Handler) (now : Int) (ts : TargetStitch) :
      Reachable ts → Reachable (flush hs now ts).ts

/-- The buffer homogeneity invariant: every buffered message has the same
stream and version as the first buffered message. -/
def homogeneous (messages : List BMessage) : Bool :=
  match messages with
  | [] => true
  | m0 :: rest => rest.all fun m => m.stream == m0.stream && m.version == m0.version

/-- Outcome of one delivery attempt by StitchHandler.send: the POST
succeeded past raise_for_status, raised an HTTPError with the given
response status, or raised a connection-level RequestException with no
response. -/
inductive SendOutcome where
  | success
  | httpError (status : Nat)
  | connError
  deriving DecidableEq

/-- Whether the attempt raised a RequestException (anything but success). -/
def outcome_raises : SendOutcome → Bool
  | .success => false
  | _ => true

/-- Model of singer.utils.exception_is_4xx, the giveup predicate: the
exception carries a response whose status code is in [400, 500). -/
def outcome_is_4xx : SendOutcome → Bool
  | .httpError status => decide (400 ≤ status) && decide (status < 500)
  | _ => false

/-- Final result of the retrying send: delivered, gave up immediately on a
4xx, or exhausted the attempt ceiling. -/
inductive SendResult where
  | delivered
  | gaveUp (o : SendOutcome)
  | exhausted (o : SendOutcome)
  deriving DecidableEq

/-- Modelled from the spec: the retry loop that the third-party
backoff.on_exception decorator (configured on StitchHandler.send, lines
133-137, with expo backoff, max_tries=8 and giveup=exception_is_4xx) wraps
around the delivery attempt.  `outcomes i` is the outcome of attempt number
i (0-based), `tries_left` the remaining allowed attempts, `i` the next
attempt index; the result pairs the total number of attempts performed
with the final outcome.  The exponential sleep times do not affect which
attempts happen, so they are not modelled. -/
def retry_loop (outcomes : Nat → SendOutcome) : Nat → Nat → Nat × SendResult
  | 0, i => (i, .exhausted (outcomes i))
  | tries_left + 1, i =>
    let o := outcomes i
    if outcome_raises o = false then (i + 1, .delivered)
    else if outcome_is_4xx o then (i + 1, .gaveUp o)
    else if tries_left = 0 then (i + 1, .exhausted o)
    else retry_loop outcomes tries_left (i + 1)

/-- StitchHandler.send as wrapped by the backoff decorator: up to 8 total
attempts. -/
def send_with_retries (outcomes : Nat → SendOutcome) : Nat × SendResult :=
  retry_loop outcomes 8 0

/-- What the HTTPError branch of handle_batch raises: the known
stack-trace-suppressed TargetStitchException carrying a message, or the
uncaught TypeError from concatenating a non-string 'message' value at the
raise site (line 179, outside the try block). -/
inductive BatchError where
  | stitchError (msg : String)
  | typeError
  deriving DecidableEq

/-- The try block at lines 175-178: json.loads(exc.response.json())
succeeds only when the response body is a JSON string whose content parses
to a JSON object, and the 'message' subscript succeeds only when that
object has the key; every other shape raises inside the try and is caught
by the bare except. -/
def extract_rejection_message (body : String) : Option Json :=
  match Json.parse body with
  | some (.str s) =>
      match Json.parse s with
      | some (.obj fields) => dict_get fields "message"
      | _ => none
  | _ => none

/-- Model of the HTTPError handler in StitchHandler.handle_batch (lines
174-179).  `body` is the raw response body text, `summary` the fallback
text built by '(response): (content)'.  A successfully extracted string
message, or the fallback summary, is wrapped in TargetStitchException with
the fixed prefix; a successfully extracted non-string message makes the
string concatenation at the raise site raise TypeError. -/
def handle_http_error (body : String) (summary : String) : BatchError :=
  match extract_rejection_message body with
  | some (.str m) => .stitchError ("Error sending data to Stitch: " ++ m)
  | some _ => .typeError
  | none => .stitchError ("Error sending data to Stitch: " ++ summary)


/-! Characterization lemmas for the two steps of flush, shared by several
claim proofs below. -/

/-- Step 1 on an empty buffer does nothing. -/
theorem flush_step1_empty (hs : List Handler) (now : Int) (ts : TargetStitch)
    (h : ts.messages = []) : flush_step1 hs now ts = ⟨none, ts, []⟩ := by
  unfold flush_step1
  rw [h]

/-- Step 1 raises the KeyError when the buffer's stream has no metadata. -/
theorem flush_step1_keyerror (hs : List Handler) (now : Int) (ts : TargetStitch)
    (m0 : BMessage) (rest : List BMessage)
    (hbuf : ts.messages = m0 :: rest)
    (hlook : meta_lookup ts.stream_meta m0.stream = none) :
    flush_step1 hs now ts = ⟨some (.keyError m0.stream), ts, []⟩ := by
  unfold flush_step1
  rw [hbuf]
  simp only [hlook]

/-- Step 1 propagates the first sink error, mutating nothing. -/
theorem flush_step1_sinkerror (hs : List Handler) (now : Int) (ts : TargetStitch)
    (m0 : BMessage) (rest : List BMessage) (meta : StreamMeta) (e : String)
    (hbuf : ts.messages = m0 :: rest)
    (hlook : meta_lookup ts.stream_meta m0.stream = some meta)
    (hrun : run_handlers hs ts.messages meta.schema meta.key_properties = some e) :
    flush_step1 hs now ts = ⟨some (.sinkError e), ts, []⟩ := by
  unfold flush_step1
  rw [hbuf] at hrun ⊢
  simp only [hlook, hrun]

/-- Step 1 on a non-empty buffer, when the lookup and every sink succeed,
resets the buffer, the byte counter and the clock. -/
theorem flush_step1_ok (hs : List Handler) (now : Int) (ts : TargetStitch)
    (m0 : BMessage) (rest : List BMessage) (meta : StreamMeta)
    (hbuf : ts.messages = m0 :: rest)
    (hlook : meta_lookup ts.stream_meta m0.stream = some meta)
    (hrun : run_handlers hs ts.messages meta.schema meta.key_properties = none) :
    flush_step1 hs now ts =
      ⟨none, { ts with time_last_batch_sent := now, messages := [], buffer_size_bytes := 0 }, []⟩ := by
  unfold flush_step1
  rw [hbuf] at hrun ⊢
  simp only [hlook, hrun]

/-- flush returns the step-1 result when step 1 raised. -/
theorem flush_of_step1_err (hs : List Handler) (now : Int) (ts : TargetStitch)
    (e : EngineError) (ts1 : TargetStitch) (out1 : List String)
    (h : flush_step1 hs now ts = ⟨some e, ts1, out1⟩) :
    flush hs now ts = ⟨some e, ts1, out1⟩ := by
  unfold flush
  rw [h]

/-- flush composes step 2 after a successful step 1. -/
theorem flush_of_step1_ok (hs : List Handler) (now : Int) (ts : TargetStitch)
    (ts1 : TargetStitch) (out1 : List String)
    (h : flush_step1 hs now ts = ⟨none, ts1, out1⟩) :
    flush hs now ts = ⟨none, (flush_step2 ts1).1, (flush_step2 ts1).2⟩ := by
  unfold flush
  rw [h]

/-- Step 2 changes only the pending-checkpoint field. -/
theorem flush_step2_fields (ts : TargetStitch) :
    (flush_step2 ts).1.messages = ts.messages ∧
    (flush_step2 ts).1.buffer_size_bytes = ts.buffer_size_bytes ∧
    (flush_step2 ts).1.time_last_batch_sent = ts.time_last_batch_sent ∧
    (flush_step2 ts).1.stream_meta = ts.stream_meta := by
  unfold flush_step2
  cases ts.state with
  | none => exact ⟨rfl, rfl, rfl, rfl⟩
  | some v =>
      by_cases htr : v.truthy
      · simp only [htr]
        exact ⟨rfl, rfl, rfl, rfl⟩
      · simp only [htr]
        exact ⟨rfl, rfl, rfl, rfl⟩

/-- The lines step 2 writes: nothing, or exactly the serialized pending
checkpoint. -/
theorem flush_step2_out (ts : TargetStitch) :
    (flush_step2 ts).2 = [] ∨
    ∃ v, ts.state = some v ∧ (flush_step2 ts).2 = [Json.dumps v ++ "\n"] := by
  unfold flush_step2
  cases hst : ts.state with
  | none => exact Or.inl rfl
  | some v =>
      by_cases htr : v.truthy
      · exact Or.inr ⟨v, rfl, by simp only [htr, if_true]⟩
      · simp only [htr]
        exact Or.inl rfl

/-! Concrete inputs used by witnesses. -/

/-- A trivial StreamMeta entry. -/
def meta0 : StreamMeta := ⟨Json.null, []⟩

/-- An engine state with one buffered record for stream "s", metadata for
"s" present, and a pending checkpoint. -/
def ts_buf : TargetStitch :=
  { messages := [BMessage.record "s" Json.null none]
    buffer_size_bytes := 10
    state := some (Json.num 7)
    stream_meta := [("s", meta0)]
    max_batch_bytes := 100
    max_batch_records := 100
    batch_delay_seconds := 100
    time_last_batch_sent := 0 }

/-- An engine state with one buffered record for stream "s" and an empty
stream_meta dict. -/
def ts_nometa : TargetStitch :=
  { messages := [BMessage.record "s" Json.null none]
    buffer_size_bytes := 10
    state := none
    stream_meta := []
    max_batch_bytes := 100
    max_batch_records := 100
    batch_delay_seconds := 100
    time_last_batch_sent := 0 }

/-- A sink whose handle_batch always raises. -/
def failing_sink : Handler := fun _ _ _ => some "boom"

/-- C1: if any configured sink's batch-handling operation raises during
step 1 of flush, the error propagates out of flush, the output/checkpoint
stream receives zero new lines from that flush, and the engine state —
in particular the pending checkpoint — is exactly as it was before the
call (step 2 does not run). -/
theorem flush_sink_error_no_checkpoint
    (hs : List Handler) (now : Int) (ts : TargetStitch)
    (m0 : BMessage) (rest : List BMessage) (meta : StreamMeta) (e : String)
    (hbuf : ts.messages = m0 :: rest)
    (hmeta : meta_lookup ts.stream_meta m0.stream = some meta)
    (herr : run_handlers hs ts.messages meta.schema meta.key_properties = some e) :
    flush hs now ts = ⟨some (.sinkError e), ts, []⟩ :=
  flush_of_step1_err hs now ts _ ts []
    (flush_step1_sinkerror hs now ts m0 rest meta e hbuf hmeta herr)

/-- Witness for C1: a concrete failed flush leaves the state (with its
pending checkpoint 7) untouched and writes nothing. -/
theorem flush_sink_error_no_checkpoint_witness :
    flush [failing_sink] 5 ts_buf = ⟨some (.sinkError "boom"), ts_buf, []⟩ ∧
    ts_buf.state = some (Json.num 7) :=
  ⟨flush_sink_error_no_checkpoint [failing_sink] 5 ts_buf
      (BMessage.record "s" Json.null none) [] meta0 "boom" rfl rfl rfl,
   rfl⟩

/-- C10: flushing a non-empty buffer whose stream has no StreamMeta entry
fails with the KeyError from the stream_meta lookup — identically for
every handler list, so no sink's handle_batch runs — and emits no
checkpoint line; conversely, any successful flush of a non-empty buffer
implies a StreamMeta entry for the buffer's stream exists. -/
theorem flush_missing_schema_keyerror
    (now : Int) (ts : TargetStitch) (m0 : BMessage) (rest : List BMessage)
    (hbuf : ts.messages = m0 :: rest) :
    (meta_lookup ts.stream_meta m0.stream = none →
       ∀ hs : List Handler, flush hs now ts = ⟨some (.keyError m0.stream), ts, []⟩) ∧
    (∀ hs : List Handler, (flush hs now ts).err = none →
       ∃ meta, meta_lookup ts.stream_meta m0.stream = some meta) := by
  constructor
  · intro hmeta hs
    exact flush_of_step1_err hs now ts _ ts []
      (flush_step1_keyerror hs now ts m0 rest hbuf hmeta)
  · intro hs hok
    cases hlook : meta_lookup ts.stream_meta m0.stream with
    | some meta => exact ⟨meta, rfl⟩
    | none =>
        rw [flush_of_step1_err hs now ts _ ts []
          (flush_step1_keyerror hs now ts m0 rest hbuf hlook)] at hok
        exact absurd hok (by simp)

/-- Witness for C10: the concrete no-metadata state fails with the
KeyError for "s" for an arbitrary sink list. -/
theorem flush_missing_schema_keyerror_witness :
    flush [failing_sink] 5 ts_nometa = ⟨some (.keyError "s"), ts_nometa, []⟩ :=
  (flush_missing_schema_keyerror 5 ts_nometa
      (BMessage.record "s" Json.null none) [] rfl).1 rfl [failing_sink]

/-- Counterexample for C5: flush() invoked with an empty buffer returns
successfully but leaves time_last_batch_sent at its old value (0) instead
of setting it to the completion time (5): the wall-clock reference is only
reset inside the non-empty-buffer branch (lines 322-328). -/
theorem flush_empty_buffer_keeps_clock :
    (flush [] 5 (TargetStitch.init 100 100 100 0)).err = none ∧
    (flush [] 5 (TargetStitch.init 100 100 100 0)).ts.time_last_batch_sent = 0 ∧
    ¬ (flush [] 5 (TargetStitch.init 100 100 100 0)).ts.time_last_batch_sent = 5 :=
  ⟨rfl, rfl, fun h => absurd (rfl.trans h.symm) (by decide)⟩

/-- C5 (amended): after a successful flush with a non-empty buffer, the
buffered message list is empty, the byte counter is zero and
time_last_batch_sent is the flush time; after a successful flush with an
empty buffer all three keep their previous values. -/
theorem flush_resets_counters
    (hs : List Handler) (now : Int) (ts : TargetStitch)
    (hok : (flush hs now ts).err = none) :
    (ts.messages ≠ [] →
       (flush hs now ts).ts.messages = [] ∧
       (flush hs now ts).ts.buffer_size_bytes = 0 ∧
       (flush hs now ts).ts.time_last_batch_sent = now) ∧
    (ts.messages = [] →
       (flush hs now ts).ts.messages = ts.messages ∧
       (flush hs now ts).ts.buffer_size_bytes = ts.buffer_size_bytes ∧
       (flush hs now ts).ts.time_last_batch_sent = ts.time_last_batch_sent) := by
  constructor
  · intro hne
    obtain ⟨m0, rest, hbuf⟩ : ∃ m0 rest, ts.messages = m0 :: rest := by
      cases h : ts.messages with
      | nil => exact absurd h hne
      | cons a b => exact ⟨a, b, rfl⟩
    cases hlook : meta_lookup ts.stream_meta m0.stream with
    | none =>
        rw [flush_of_step1_err hs now ts _ ts []
          (flush_step1_keyerror hs now ts m0 rest hbuf hlook)] at hok
        exact absurd hok (by simp)
    | some meta =>
        cases hrun : run_handlers hs ts.messages meta.schema meta.key_properties with
        | some e =>
            rw [flush_of_step1_err hs now ts _ ts []
              (flush_step1_sinkerror hs now ts m0 rest meta e hbuf hlook hrun)] at hok
            exact absurd hok (by simp)
        | none =>
            rw [flush_of_step1_ok hs now ts _ []
              (flush_step1_ok hs now ts m0 rest meta hbuf hlook hrun)]
            obtain ⟨hm, hb, ht, _⟩ := flush_step2_fields
              { ts with time_last_batch_sent := now, messages := [], buffer_size_bytes := 0 }
            exact ⟨hm, hb, ht⟩
  · intro hnil
    rw [flush_of_step1_ok hs now ts ts [] (flush_step1_empty hs now ts hnil)]
    obtain ⟨hm, hb, ht, _⟩ := flush_step2_fields ts
    exact ⟨hm, hb, ht⟩

/-- Witness for C5 (amended): a concrete successful flush of a non-empty
buffer zeroes the counters and stamps the clock at the flush time 5. -/
theorem flush_resets_counters_witness :
    (flush [] 5 ts_buf).err = none ∧
    (flush [] 5 ts_buf).ts.messages = [] ∧
    (flush [] 5 ts_buf).ts.buffer_size_bytes = 0 ∧
    (flush [] 5 ts_buf).ts.time_last_batch_sent = 5 :=
  have h := (flush_resets_counters [] 5 ts_buf rfl).1 (List.cons_ne_nil _ _)
  ⟨rfl, h.1, h.2.1, h.2.2⟩

/-- C7: handling a StateMessage only overwrites the pending checkpoint —
it writes nothing to the output stream and performs no flush — and any
checkpoint line a flush does write is json.dumps of the pending (most
recently received) checkpoint value at that flush boundary, so
intermediate values overwritten before a flush are never emitted. -/
theorem state_message_overwrite_only :
    (∀ (hs : List Handler) (now : Int) (line_len : Nat) (v : Json) (ts : TargetStitch),
       handle_message hs now line_len (.state v) ts =
         ⟨none, { ts with state := some v }, [], 0⟩) ∧
    (∀ (hs : List Handler) (now : Int) (ts : TargetStitch),
       (flush hs now ts).out = [] ∨
       ∃ v, ts.state = some v ∧ (flush hs now ts).out = [Json.dumps v ++ "\n"]) := by
  constructor
  · intro hs now line_len v ts
    rfl
  · intro hs now ts
    cases hbuf : ts.messages with
    | nil =>
        rw [flush_of_step1_ok hs now ts ts [] (flush_step1_empty hs now ts hbuf)]
        exact flush_step2_out ts
    | cons m0 rest =>
        cases hlook : meta_lookup ts.stream_meta m0.stream with
        | none =>
            rw [flush_of_step1_err hs now ts _ ts []
              (flush_step1_keyerror hs now ts m0 rest hbuf hlook)]
            exact Or.inl rfl
        | some meta =>
            cases hrun : run_handlers hs ts.messages meta.schema meta.key_properties with
            | some e =>
                rw [flush_of_step1_err hs now ts _ ts []
                  (flush_step1_sinkerror hs now ts m0 rest meta e hbuf hlook hrun)]
                exact Or.inl rfl
            | none =>
                rw [flush_of_step1_ok hs now ts _ []
                  (flush_step1_ok hs now ts m0 rest meta hbuf hlook hrun)]
                rcases flush_step2_out
                    { ts with time_last_batch_sent := now, messages := [], buffer_size_bytes := 0 }
                  with h | ⟨v, hv, hout⟩
                · exact Or.inl h
                · exact Or.inr ⟨v, hv, hout⟩

/-- The engine state right after the append of lines 361-362, taking into
account the possible mismatch flush that preceded it. -/
def append_state (hs : List Handler) (now : Int) (line_len : Nat) (b : BMessage)
    (ts : TargetStitch) : TargetStitch :=
  append_message line_len b (if buffer_mismatch b ts then (flush hs now ts).ts else ts)

/-- The flush count produced by the append-then-check phase. -/
theorem append_then_check_flushes (hs : List Handler) (now : Int) (line_len : Nat)
    (b : BMessage) (out0 : List String) (n0 : Nat) (ts : TargetStitch) :
    (append_then_check hs now line_len b out0 n0 ts).flushes =
      n0 + (if trigger now (append_message line_len b ts) then 1 else 0) := by
  unfold append_then_check
  by_cases htr : trigger now (append_message line_len b ts) = true
  · simp only [if_pos htr]
  · simp only [if_neg htr]
    omega

/-- An engine state for the C4 witness: empty buffer, metadata for "s"
present, and a record-count limit of 1 so the very first append fires the
count trigger. -/
def ts_trig : TargetStitch :=
  { messages := []
    buffer_size_bytes := 0
    state := none
    stream_meta := [("s", meta0)]
    max_batch_bytes := 1000
    max_batch_records := 1
    batch_delay_seconds := 1000
    time_last_batch_sent := 0 }

/-- C4: when a RecordMessage or ActivateVersionMessage is handled without
error, the number of flush() calls performed is the mismatch flush (if
any) plus exactly one trigger flush iff the OR of the three trigger
conditions — enough bytes, enough messages, enough time — holds on the
post-append state; no trigger means no flush after the append. -/
theorem record_flush_iff_trigger
    (hs : List Handler) (now : Int) (line_len : Nat) (msg : Message) (b : BMessage)
    (ts : TargetStitch)
    (hb : msg.toBuffered = some b)
    (hok : (handle_message hs now line_len msg ts).err = none) :
    (handle_message hs now line_len msg ts).flushes =
      (if buffer_mismatch b ts then 1 else 0) +
      (if trigger now (append_state hs now line_len b ts) then 1 else 0) := by
  have key : ∀ b' : BMessage, (handle_buffered hs now line_len b' ts).err = none →
      (handle_buffered hs now line_len b' ts).flushes =
        (if buffer_mismatch b' ts then 1 else 0) +
        (if trigger now (append_state hs now line_len b' ts) then 1 else 0) := by
    intro b' hok'
    unfold handle_buffered at hok' ⊢
    unfold append_state
    by_cases hmm : buffer_mismatch b' ts = true
    · simp only [if_pos hmm] at hok' ⊢
      cases hf : flush hs now ts with
      | mk e1 ts1 out1 =>
          cases e1 with
          | some e =>
              rw [hf] at hok'
              exact Option.noConfusion hok'
          | none =>
              rw [append_then_check_flushes]
    · simp only [if_neg hmm] at hok' ⊢
      rw [append_then_check_flushes]
  cases msg with
  | schema s sch keys => exact absurd hb (by simp [Message.toBuffered])
  | state v => exact absurd hb (by simp [Message.toBuffered])
  | record s r v =>
      simp only [Message.toBuffered, Option.some.injEq] at hb
      subst hb
      exact key _ hok
  | activateVersion s v =>
      simp only [Message.toBuffered, Option.some.injEq] at hb
      subst hb
      exact key _ hok

/-- Witness for C4: appending one record under a record-count limit of 1
performs exactly one flush (no mismatch flush plus one trigger flush). -/
theorem record_flush_iff_trigger_witness :
    (handle_message [] 0 3 (Message.record "s" Json.null none) ts_trig).err = none ∧
    (handle_message [] 0 3 (Message.record "s" Json.null none) ts_trig).flushes =
      (if buffer_mismatch (BMessage.record "s" Json.null none) ts_trig then 1 else 0) +
      (if trigger 0 (append_state [] 0 3 (BMessage.record "s" Json.null none) ts_trig)
         then 1 else 0) :=
  ⟨rfl, record_flush_iff_trigger [] 0 3 _ _ ts_trig rfl rfl⟩

/-- A true buffer mismatch implies the buffer is non-empty. -/
theorem buffer_mismatch_nonempty (b : BMessage) (ts : TargetStitch)
    (h : buffer_mismatch b ts = true) : ∃ m0 rest, ts.messages = m0 :: rest := by
  unfold buffer_mismatch at h
  cases hbuf : ts.messages with
  | nil =>
      rw [hbuf] at h
      exact absurd h (by simp)
  | cons a l => exact ⟨a, l, rfl⟩

/-- Flushing preserves the buffer homogeneity invariant: the buffer comes
out empty or untouched. -/
theorem flush_preserves_homogeneous (hs : List Handler) (now : Int) (ts : TargetStitch)
    (h : homogeneous ts.messages = true) :
    homogeneous (flush hs now ts).ts.messages = true := by
  cases hbuf : ts.messages with
  | nil =>
      rw [flush_of_step1_ok hs now ts ts [] (flush_step1_empty hs now ts hbuf)]
      rw [(flush_step2_fields ts).1, hbuf]
      rfl
  | cons m0 rest =>
      cases hlook : meta_lookup ts.stream_meta m0.stream with
      | none =>
          rw [flush_of_step1_err hs now ts _ ts []
            (flush_step1_keyerror hs now ts m0 rest hbuf hlook)]
          exact h
      | some meta =>
          cases hrun : run_handlers hs ts.messages meta.schema meta.key_properties with
          | some e =>
              rw [flush_of_step1_err hs now ts _ ts []
                (flush_step1_sinkerror hs now ts m0 rest meta e hbuf hlook hrun)]
              exact h
          | none =>
              rw [flush_of_step1_ok hs now ts _ []
                (flush_step1_ok hs now ts m0 rest meta hbuf hlook hrun)]
              rw [(flush_step2_fields _).1]
              rfl

/-- A successful flush of a non-empty buffer leaves the buffer empty. -/
theorem flush_ok_clears (hs : List Handler) (now : Int) (ts : TargetStitch)
    (ts1 : TargetStitch) (out1 : List String) (m0 : BMessage) (rest : List BMessage)
    (hbuf : ts.messages = m0 :: rest)
    (hf : flush hs now ts = ⟨none, ts1, out1⟩) : ts1.messages = [] := by
  cases hlook : meta_lookup ts.stream_meta m0.stream with
  | none =>
      rw [flush_of_step1_err hs now ts _ ts []
        (flush_step1_keyerror hs now ts m0 rest hbuf hlook)] at hf
      exact absurd (congrArg FlushOut.err hf) (by simp)
  | some meta =>
      cases hrun : run_handlers hs ts.messages meta.schema meta.key_properties with
      | some e =>
          rw [flush_of_step1_err hs now ts _ ts []
            (flush_step1_sinkerror hs now ts m0 rest meta e hbuf hlook hrun)] at hf
          exact absurd (congrArg FlushOut.err hf) (by simp)
      | none =>
          rw [flush_of_step1_ok hs now ts _ []
            (flush_step1_ok hs now ts m0 rest meta hbuf hlook hrun)] at hf
          have h1 :
              (flush_step2
                { ts with time_last_batch_sent := now, messages := [], buffer_size_bytes := 0 }).1
                = ts1 :=
            congrArg FlushOut.ts hf
          rw [← h1]
          exact (flush_step2_fields _).1

/-- Appending a non-mismatching message preserves homogeneity. -/
theorem homogeneous_append (b : BMessage) (ts : TargetStitch)
    (h : homogeneous ts.messages = true) (hmm : buffer_mismatch b ts = false) :
    homogeneous (ts.messages ++ [b]) = true := by
  unfold buffer_mismatch at hmm
  cases hbuf : ts.messages with
  | nil => rfl
  | cons m0 rest =>
      rw [hbuf] at h hmm
      simp at hmm
      unfold homogeneous at h ⊢
      simp only [List.cons_append]
      rw [List.all_append]
      have h' : rest.all (fun m => m.stream == m0.stream && m.version == m0.version) = true := h
      simp only [List.all_eq_true, Bool.and_eq_true, beq_iff_eq] at h' ⊢
      refine ⟨h', ?_⟩
      intro x hx
      rw [List.mem_singleton] at hx
      subst hx
      exact ⟨hmm.1, hmm.2⟩

/-- The append-then-check phase preserves homogeneity of the appended
buffer. -/
theorem append_then_check_preserves_homogeneous (hs : List Handler) (now : Int)
    (line_len : Nat) (b : BMessage) (out0 : List String) (n0 : Nat) (ts : TargetStitch)
    (h : homogeneous (ts.messages ++ [b]) = true) :
    homogeneous (append_then_check hs now line_len b out0 n0 ts).ts.messages = true := by
  unfold append_then_check
  by_cases htr : trigger now (append_message line_len b ts) = true
  · simp only [if_pos htr]
    cases hf : flush hs now (append_message line_len b ts) with
    | mk e2 ts3 out2 =>
        have hp := flush_preserves_homogeneous hs now (append_message line_len b ts) h
        rw [hf] at hp
        exact hp
  · simp only [if_neg htr]
    exact h

/-- Handling a bufferable message preserves homogeneity. -/
theorem handle_buffered_preserves_homogeneous (hs : List Handler) (now : Int)
    (line_len : Nat) (b : BMessage) (ts : TargetStitch)
    (h : homogeneous ts.messages = true) :
    homogeneous (handle_buffered hs now line_len b ts).ts.messages = true := by
  unfold handle_buffered
  by_cases hmm : buffer_mismatch b ts = true
  · simp only [if_pos hmm]
    obtain ⟨m0, rest, hbuf⟩ := buffer_mismatch_nonempty b ts hmm
    cases hf : flush hs now ts with
    | mk e1 ts1 out1 =>
        cases e1 with
        | some e =>
            have hp := flush_preserves_homogeneous hs now ts h
            rw [hf] at hp
            exact hp
        | none =>
            have hclear : ts1.messages = [] :=
              flush_ok_clears hs now ts ts1 out1 m0 rest hbuf hf
            apply append_then_check_preserves_homogeneous
            rw [hclear]
            rfl
  · simp only [if_neg hmm]
    have hmm' : buffer_mismatch b ts = false := by
      revert hmm
      cases buffer_mismatch b ts <;> simp
    exact append_then_check_preserves_homogeneous hs now line_len b [] 0 ts
      (homogeneous_append b ts h hmm')

/-- Handling any message preserves homogeneity. -/
theorem handle_message_preserves_homogeneous (hs : List Handler) (now : Int)
    (line_len : Nat) (msg : Message) (ts : TargetStitch)
    (h : homogeneous ts.messages = true) :
    homogeneous (handle_message hs now line_len msg ts).ts.messages = true := by
  cases msg with
  | schema s sch keys =>
      unfold handle_message
      cases hf : flush hs now ts with
      | mk e1 ts1 out1 =>
          have hp := flush_preserves_homogeneous hs now ts h
          rw [hf] at hp
          cases e1 with
          | some e => exact hp
          | none => exact hp
  | record s r v => exact handle_buffered_preserves_homogeneous hs now line_len _ ts h
  | activateVersion s v => exact handle_buffered_preserves_homogeneous hs now line_len _ ts h
  | state v => exact h

/-- C6: in every reachable engine state the buffer is homogeneous in
(stream, version): every buffered message agrees with the first buffered
message on both, because a mismatching RecordMessage or
ActivateVersionMessage always flushes the old buffer before being
appended. -/
theorem reachable_buffer_homogeneous (ts : TargetStitch) (h : Reachable ts) :
    homogeneous ts.messages = true := by
  induction h with
  | init mbb mbr bds t0 => rfl
  | step hs now line_len msg ts0 _ ih =>
      exact handle_message_preserves_homogeneous hs now line_len msg ts0 ih
  | flush_step hs now ts0 _ ih =>
      exact flush_preserves_homogeneous hs now ts0 ih

/-- Witness for C6: the state reached by buffering one record from a fresh
engine is reachable and its (non-empty) buffer is homogeneous. -/
theorem reachable_buffer_homogeneous_witness :
    homogeneous ((handle_message [] 0 3 (Message.record "s" Json.null none)
      (TargetStitch.init 1000 1000 1000 0)).ts).messages = true :=
  reachable_buffer_homogeneous _
    (Reachable.step [] 0 3 (Message.record "s" Json.null none) _
      (Reachable.init 1000 1000 1000 0))

/-- The 'messages' array of the body serialize builds for a chunk is the
per-message serialization of the chunk, in order. -/
theorem body_messages_mk_body (m0 : BMessage) (ms : List BMessage) (schema : Json)
    (key_names : List String) (vintage : String) (seq : Int) :
    body_messages (mk_body m0 ms schema key_names vintage seq) =
      ms.map (serialize_message vintage seq) := by
  cases hv : m0.version with
  | none =>
      unfold mk_body body_messages
      rw [hv]
      rfl
  | some v =>
      unfold mk_body body_messages
      rw [hv]
      rfl

/-- Flattening commutes with mapping over each chunk. -/
theorem flatten_map_map {α β : Type} (f : α → β) (L : List (List α)) :
    (L.map (fun c => c.map f)).flatten = L.flatten.map f := by
  induction L with
  | nil => rfl
  | cons c L ih =>
      simp only [List.map_cons, List.flatten_cons, List.map_append, ih]

/-- Induction core for the serializer: any successful serialize run
partitions its input into non-empty contiguous chunks, returns exactly the
chunk bodies in order, and every returned body is strictly under the size
limit. -/
theorem serialize_chunks_aux (n : Nat) :
    ∀ (messages : List BMessage) (schema : Json) (key_names : List String)
      (max_bytes : Nat) (vintage : String) (seq : Int) (bodies : List String),
      messages.length ≤ n →
      serialize messages schema key_names max_bytes vintage seq = .ok bodies →
      ∃ chunks : List (List BMessage),
        chunks.flatten = messages ∧
        (∀ c ∈ chunks, c ≠ []) ∧
        bodies = chunks.map (fun c => Json.dumps (chunk_body c schema key_names vintage seq)) ∧
        ∀ c ∈ chunks,
          (Json.dumps (chunk_body c schema key_names vintage seq)).length < max_bytes := by
  induction n with
  | zero =>
      intro messages schema key_names max_bytes vintage seq bodies hlen h
      have hnil : messages = [] := List.eq_nil_of_length_eq_zero (Nat.le_zero.mp hlen)
      subst hnil
      rw [serialize.eq_def] at h
      exact absurd h (by simp)
  | succ n ih =>
      intro messages schema key_names max_bytes vintage seq bodies hlen h
      cases messages with
      | nil =>
          rw [serialize.eq_def] at h
          exact absurd h (by simp)
      | cons m0 rest =>
          rw [serialize.eq_def] at h
          dsimp only [] at h
          by_cases hfit :
              (Json.dumps (mk_body m0 (m0 :: rest) schema key_names vintage seq)).length
                < max_bytes
          · rw [if_pos hfit] at h
            have hb : bodies =
                [Json.dumps (mk_body m0 (m0 :: rest) schema key_names vintage seq)] :=
              (Except.ok.injEq _ _).mp h.symm
            refine ⟨[m0 :: rest], by simp, ?_, ?_, ?_⟩
            · intro c hc
              rw [List.mem_singleton] at hc
              subst hc
              exact List.cons_ne_nil _ _
            · rw [hb]
              rfl
            · intro c hc
              rw [List.mem_singleton] at hc
              subst hc
              exact hfit
          · rw [if_neg hfit] at h
            by_cases hone : (m0 :: rest).length ≤ 1
            · rw [if_pos hone] at h
              exact absurd h (by simp)
            · rw [if_neg hone] at h
              cases hl : serialize ((m0 :: rest).take ((m0 :: rest).length / 2))
                  schema key_names max_bytes vintage seq with
              | error e =>
                  rw [hl] at h
                  exact absurd h (by simp [Except.bind])
              | ok l_half =>
                  cases hr : serialize ((m0 :: rest).drop ((m0 :: rest).length / 2))
                      schema key_names max_bytes vintage seq with
                  | error e =>
                      rw [hl, hr] at h
                      exact absurd h (by simp [Except.bind, Except.map])
                  | ok r_half =>
                      rw [hl, hr] at h
                      have hb : l_half ++ r_half = bodies := by
                        simpa [Except.bind, Except.map] using h
                      have hlenl : ((m0 :: rest).take ((m0 :: rest).length / 2)).length ≤ n := by
                        simp only [List.length_take, List.length_cons] at *
                        omega
                      have hlenr : ((m0 :: rest).drop ((m0 :: rest).length / 2)).length ≤ n := by
                        simp only [List.length_drop, List.length_cons] at *
                        omega
                      obtain ⟨cl, hcl1, hcl2, hcl3, hcl4⟩ :=
                        ih _ schema key_names max_bytes vintage seq l_half hlenl hl
                      obtain ⟨cr, hcr1, hcr2, hcr3, hcr4⟩ :=
                        ih _ schema key_names max_bytes vintage seq r_half hlenr hr
                      refine ⟨cl ++ cr, ?_, ?_, ?_, ?_⟩
                      · rw [List.flatten_append, hcl1, hcr1]
                        exact List.take_append_drop _ _
                      · intro c hc
                        rcases List.mem_append.mp hc with h1 | h1
                        · exact hcl2 c h1
                        · exact hcr2 c h1
                      · rw [← hb, List.map_append, hcl3, hcr3]
                      · intro c hc
                        rcases List.mem_append.mp hc with h1 | h1
                        · exact hcl4 c h1
                        · exact hcr4 c h1

/-- C2: whenever serialize succeeds, its input is partitioned into
non-empty contiguous chunks whose bodies are returned in order, and the
concatenation of the 'messages' arrays of all produced bodies equals the
per-message serialization of the input list, in order — no message is
dropped, duplicated or reordered across bodies. -/
theorem serialize_preserves_messages
    (messages : List BMessage) (schema : Json) (key_names : List String)
    (max_bytes : Nat) (vintage : String) (seq : Int) (bodies : List String)
    (h : serialize messages schema key_names max_bytes vintage seq = .ok bodies) :
    ∃ chunks : List (List BMessage),
      chunks.flatten = messages ∧
      (∀ c ∈ chunks, c ≠ []) ∧
      bodies = chunks.map (fun c => Json.dumps (chunk_body c schema key_names vintage seq)) ∧
      (chunks.map (fun c => body_messages (chunk_body c schema key_names vintage seq))).flatten
        = messages.map (serialize_message vintage seq) := by
  obtain ⟨chunks, h1, h2, h3, _⟩ :=
    serialize_chunks_aux messages.length messages schema key_names max_bytes vintage seq
      bodies le_rfl h
  refine ⟨chunks, h1, h2, h3, ?_⟩
  have hmap :
      chunks.map (fun c => body_messages (chunk_body c schema key_names vintage seq))
        = chunks.map (fun c => c.map (serialize_message vintage seq)) := by
    apply List.map_congr_left
    intro c hc
    cases hcc : c with
    | nil => exact absurd hcc (h2 c hc)
    | cons a l =>
        unfold chunk_body
        exact body_messages_mk_body a (a :: l) schema key_names vintage seq
  rw [hmap, flatten_map_map, h1]

/-- A one-message batch used by the serializer witnesses. -/
def msg_w : BMessage := BMessage.activateVersion "s" none

/-- Witness for C2: a concrete one-chunk run of serialize. -/
theorem serialize_preserves_messages_witness :
    ∃ chunks : List (List BMessage),
      chunks.flatten = [msg_w] ∧
      (∀ c ∈ chunks, c ≠ []) ∧
      [Json.dumps (chunk_body [msg_w] Json.null [] "v" 0)] =
        chunks.map (fun c => Json.dumps (chunk_body c Json.null [] "v" 0)) ∧
      (chunks.map (fun c => body_messages (chunk_body c Json.null [] "v" 0))).flatten
        = [msg_w].map (serialize_message "v" 0) :=
  serialize_preserves_messages [msg_w] Json.null [] 1000 "v" 0
    [Json.dumps (chunk_body [msg_w] Json.null [] "v" 0)]
    (by rw [serialize.eq_def]; rfl)

/-- C3: every body a successful serialize returns is strictly shorter than
the configured maximum; and a single message whose serialized body already
meets or exceeds the maximum makes serialize fail with
BatchTooLargeException instead of recursing. -/
theorem serialize_bodies_bounded :
    (∀ (messages : List BMessage) (schema : Json) (key_names : List String)
       (max_bytes : Nat) (vintage : String) (seq : Int) (bodies : List String),
       serialize messages schema key_names max_bytes vintage seq = .ok bodies →
       ∀ b ∈ bodies, b.length < max_bytes) ∧
    (∀ (m : BMessage) (schema : Json) (key_names : List String)
       (max_bytes : Nat) (vintage : String) (seq : Int),
       ¬ (Json.dumps (mk_body m [m] schema key_names vintage seq)).length < max_bytes →
       serialize [m] schema key_names max_bytes vintage seq = .error .batchTooLarge) := by
  constructor
  · intro messages schema key_names max_bytes vintage seq bodies h b hb
    obtain ⟨chunks, _, _, h3, h4⟩ :=
      serialize_chunks_aux messages.length messages schema key_names max_bytes vintage seq
        bodies le_rfl h
    rw [h3] at hb
    obtain ⟨c, hc, rfl⟩ := List.mem_map.mp hb
    exact h4 c hc
  · intro m schema key_names max_bytes vintage seq hbig
    rw [serialize.eq_def]
    dsimp only []
    rw [if_neg hbig]
    rw [if_pos (by simp)]

/-- Witness for C3: under a 10-byte limit the one-message batch fails as
batch-too-large, and under a 1000-byte limit its single body is within the
limit. -/
theorem serialize_bodies_bounded_witness :
    serialize [msg_w] Json.null [] 10 "v" 0 = .error .batchTooLarge ∧
    (Json.dumps (chunk_body [msg_w] Json.null [] "v" 0)).length < 1000 :=
  ⟨serialize_bodies_bounded.2 msg_w Json.null [] 10 "v" 0 (by decide),
   serialize_bodies_bounded.1 [msg_w] Json.null [] 1000 "v" 0
     [Json.dumps (chunk_body [msg_w] Json.null [] "v" 0)]
     (by rw [serialize.eq_def]; rfl) _ (List.mem_singleton.mpr rfl)⟩

/-- A 4xx outcome is in particular a raised RequestException. -/
theorem outcome_is_4xx_raises (o : SendOutcome) (h : outcome_is_4xx o = true) :
    outcome_raises o = true := by
  cases o with
  | success => exact absurd h (by decide)
  | httpError s => rfl
  | connError => rfl

/-- One unfolding step of the retry loop. -/
theorem retry_loop_succ (outcomes : Nat → SendOutcome) (k i : Nat) :
    retry_loop outcomes (k + 1) i =
      if outcome_raises (outcomes i) = false then (i + 1, .delivered)
      else if outcome_is_4xx (outcomes i) then (i + 1, .gaveUp (outcomes i))
      else if k = 0 then (i + 1, .exhausted (outcomes i))
      else retry_loop outcomes k (i + 1) := rfl

/-- Full characterization of the retry loop from any start index: at least
one and at most `tries_left` attempts happen; every attempt before the
last raised a retryable (non-4xx) error; a 4xx ends the loop at once with
a give-up; and if every allowed attempt raises retryably the loop runs to
the ceiling and reports exhaustion with the last outcome. -/
theorem retry_loop_spec (outcomes : Nat → SendOutcome) :
    ∀ (tries_left i : Nat), 1 ≤ tries_left →
      (i + 1 ≤ (retry_loop outcomes tries_left i).1 ∧
       (retry_loop outcomes tries_left i).1 ≤ i + tries_left) ∧
      (∀ j, i ≤ j → j + 1 < (retry_loop outcomes tries_left i).1 →
         outcome_raises (outcomes j) = true ∧ outcome_is_4xx (outcomes j) = false) ∧
      (∀ j, i ≤ j → j < (retry_loop outcomes tries_left i).1 →
         outcome_is_4xx (outcomes j) = true →
         (retry_loop outcomes tries_left i).1 = j + 1 ∧
         (retry_loop outcomes tries_left i).2 = .gaveUp (outcomes j)) ∧
      ((∀ j, i ≤ j → j < i + tries_left →
          outcome_raises (outcomes j) = true ∧ outcome_is_4xx (outcomes j) = false) →
        (retry_loop outcomes tries_left i).1 = i + tries_left ∧
        (retry_loop outcomes tries_left i).2 = .exhausted (outcomes (i + tries_left - 1))) := by
  intro tries_left
  induction tries_left with
  | zero => intro i h; exact absurd h (by omega)
  | succ k ih =>
      intro i _
      rw [retry_loop_succ]
      by_cases hS : outcome_raises (outcomes i) = false
      · simp only [if_pos hS]
        refine ⟨⟨le_refl _, by omega⟩, ?_, ?_, ?_⟩
        · intro j hij hj1
          exact absurd hj1 (by omega)
        · intro j hij hjlt h4
          have hji : j = i := by omega
          subst hji
          exact absurd (outcome_is_4xx_raises _ h4) (by simp [hS])
        · intro hall
          exact absurd (hall i (le_refl _) (by omega)).1 (by simp [hS])
      · have hS' : outcome_raises (outcomes i) = true := by
          revert hS
          cases outcome_raises (outcomes i) <;> simp
        by_cases h4 : outcome_is_4xx (outcomes i) = true
        · simp only [if_neg hS, if_pos h4]
          refine ⟨⟨le_refl _, by omega⟩, ?_, ?_, ?_⟩
          · intro j hij hj1
            exact absurd hj1 (by omega)
          · intro j hij hjlt _
            have hji : j = i := by omega
            subst hji
            exact ⟨rfl, rfl⟩
          · intro hall
            exact absurd h4 (by simp [(hall i (le_refl _) (by omega)).2])
        · have h4' : outcome_is_4xx (outcomes i) = false := by
            revert h4
            cases outcome_is_4xx (outcomes i) <;> simp
          by_cases hk : k = 0
          · subst hk
            simp only [if_neg hS, if_neg h4, if_true]
            refine ⟨⟨le_refl _, by omega⟩, ?_, ?_, ?_⟩
            · intro j hij hj1
              exact absurd hj1 (by omega)
            · intro j hij hjlt hj4
              have hji : j = i := by omega
              subst hji
              exact absurd hj4 (by simp [h4'])
            · intro _
              constructor <;> simp
          · simp only [if_neg hS, if_neg h4, if_neg hk]
            obtain ⟨⟨ih1a, ih1b⟩, ih2, ih3, ih4⟩ := ih (i + 1) (by omega)
            refine ⟨⟨by omega, by omega⟩, ?_, ?_, ?_⟩
            · intro j hij hj1
              by_cases hji : j = i
              · subst hji
                exact ⟨hS', h4'⟩
              · exact ih2 j (by omega) hj1
            · intro j hij hjlt hj4
              by_cases hji : j = i
              · subst hji
                exact absurd hj4 (by simp [h4'])
              · exact ih3 j (by omega) hjlt hj4
            · intro hall
              obtain ⟨he1, he2⟩ := ih4 (fun j h1 h2 => hall j (by omega) (by omega))
              refine ⟨by omega, ?_⟩
              rw [he2]
              have harg : i + 1 + k - 1 = i + (k + 1) - 1 := by omega
              rw [harg]

/-- C8 (spec-modelled retry loop): a delivery is attempted at most 8 times
in total; every attempt before the last raised a retryable (non-4xx)
error, so only such failures are retried; an attempt that receives a 4xx
response ends the run immediately (no further attempt, the 4xx is the
final outcome); and 8 consecutive retryable failures exhaust the ceiling. -/
theorem send_retry_policy (outcomes : Nat → SendOutcome) :
    (1 ≤ (send_with_retries outcomes).1 ∧ (send_with_retries outcomes).1 ≤ 8) ∧
    (∀ i, i + 1 < (send_with_retries outcomes).1 →
       outcome_raises (outcomes i) = true ∧ outcome_is_4xx (outcomes i) = false) ∧
    (∀ i, i < (send_with_retries outcomes).1 → outcome_is_4xx (outcomes i) = true →
       (send_with_retries outcomes).1 = i + 1 ∧
       (send_with_retries outcomes).2 = .gaveUp (outcomes i)) ∧
    ((∀ i, i < 8 → outcome_raises (outcomes i) = true ∧ outcome_is_4xx (outcomes i) = false) →
       (send_with_retries outcomes).1 = 8 ∧
       (send_with_retries outcomes).2 = .exhausted (outcomes 7)) := by
  obtain ⟨⟨h1a, h1b⟩, h2, h3, h4⟩ := retry_loop_spec outcomes 8 0 (by omega)
  unfold send_with_retries
  refine ⟨⟨h1a, h1b⟩, ?_, ?_, ?_⟩
  · intro i hi
    exact h2 i (Nat.zero_le i) hi
  · intro i hi hi4
    exact h3 i (Nat.zero_le i) hi hi4
  · intro hall
    exact h4 fun j _ hj => hall j hj

/-- Witness for C8: a 4xx on the very first attempt means exactly one
attempt and an immediate give-up with that outcome. -/
theorem send_retry_policy_witness :
    (send_with_retries fun _ => SendOutcome.httpError 404).1 = 1 ∧
    (send_with_retries fun _ => SendOutcome.httpError 404).2 =
      .gaveUp (SendOutcome.httpError 404) :=
  have h := send_retry_policy fun _ => SendOutcome.httpError 404
  have h3 := h.2.2.1 0 (Nat.lt_of_lt_of_le Nat.zero_lt_one h.1.1) (by decide)
  ⟨h3.1, h3.2⟩

/-- C9: the HTTPError branch of handle_batch always raises: either the
stack-trace-suppressed TargetStitchException carrying the decoded
'message' text, or — when the decode chain fails anywhere — the same
exception carrying the raw response summary (the uncaught TypeError case
can arise only when a message value was extracted but is not text).  In
particular, for the rejection response whose body is the JSON string
encoding of an object with a 'message' field, the raised error carries
that field's value. -/
theorem http_error_decoding :
    (∀ body summary : String,
       (extract_rejection_message body = none ∧
          handle_http_error body summary =
            .stitchError ("Error sending data to Stitch: " ++ summary)) ∨
       (∃ m, extract_rejection_message body = some (.str m) ∧
          handle_http_error body summary =
            .stitchError ("Error sending data to Stitch: " ++ m)) ∨
       (∃ j, extract_rejection_message body = some j ∧
          handle_http_error body summary = .typeError)) ∧
    handle_http_error "\"\x7b\\\"message\\\": \\\"please upgrade\\\"\x7d\"" "summary text" =
      .stitchError ("Error sending data to Stitch: " ++ "please upgrade") := by
  constructor
  · intro body summary
    cases hext : extract_rejection_message body with
    | none =>
        left
        refine ⟨rfl, ?_⟩
        unfold handle_http_error
        rw [hext]
    | some j =>
        cases j with
        | str m =>
            right; left
            refine ⟨m, rfl, ?_⟩
            unfold handle_http_error
            rw [hext]
        | null =>
            right; right
            refine ⟨_, rfl, ?_⟩
            unfold handle_http_error
            rw [hext]
        | bool b =>
            right; right
            refine ⟨_, rfl, ?_⟩
            unfold handle_http_error
            rw [hext]
        | num n =>
            right; right
            refine ⟨_, rfl, ?_⟩
            unfold handle_http_error
            rw [hext]
        | arr es =>
            right; right
            refine ⟨_, rfl, ?_⟩
            unfold handle_http_error
            rw [hext]
        | obj fs =>
            right; right
            refine ⟨_, rfl, ?_⟩
            unfold handle_http_error
            rw [hext]
  · rfl
